import Mathlib

/-!
Verification of the Amazon search-results filter extension (popup.js).

The development shallowly embeds the two components of `popup.js`:

* the page-context extractor `extractAmazonResultsWithFrameInfo`
  (product collection, price parsing, coupon arithmetic, delivery
  classification, sorting, HTML rendering), and
* the popup-context controller (`handleExtract`, the injection result
  handler, and `applyFilters`).

DOM elements are modelled by the text the code reads from them: an `Item`
carries one `Option String` per selector the extractor queries (`none`
means `querySelector` returned `null`).  JavaScript numbers are modelled
by `Option ℚ` (`none` standing for `NaN`); the floating-point rounding of
JS arithmetic is idealised by exact rational arithmetic.  The three regular
expressions of the coupon logic are embedded as leftmost-match scanners
over `List Char`.
-/

/-- JavaScript number as used by popup.js: `none` models `NaN`. -/
abbrev JSNum := Option ℚ

/-- Numeric value of a list of decimal digit characters (most significant first). -/
def digitsToNat (l : List Char) : Nat :=
  l.foldl (fun n c => n * 10 + (c.toNat - 48)) 0

/-- Value of a fractional digit block: `fracToRat "25".data = 25/100`. -/
def fracToRat (l : List Char) : ℚ :=
  (digitsToNat l : ℚ) / ((10 : ℚ) ^ l.length)

/-- Models `String.prototype.toLowerCase` (per-character lowering). -/
def jsToLower (s : String) : String :=
  ⟨s.data.map Char.toLower⟩

/-- Models `String.prototype.includes`: `strIncludes s pat` is true when
`pat` occurs as a contiguous substring of `s`. -/
def listHasSub (p : List Char) : List Char → Bool
  | [] => p.isEmpty
  | c :: cs => List.isPrefixOf p (c :: cs) || listHasSub p cs

/-- Substring test used by the filter and delivery logic, `s.includes(pat)`. -/
def strIncludes (s pat : String) : Bool :=
  listHasSub pat.data s.data

/-- Models `String.prototype.replace` with a one-character search string:
only the first occurrence is removed. -/
def removeFirstChar (c : Char) : List Char → List Char
  | [] => []
  | x :: xs => if x = c then xs else x :: removeFirstChar c xs

/-- Models `.replace('.', '')` on the `.a-price-whole` text: only the first
dot is removed. -/
def removeFirstDot (s : String) : String :=
  ⟨removeFirstChar '.' s.data⟩

/-- Models `priceStr.replace('$', '').replace(/,/g, '')`: first dollar sign
removed, every comma removed. -/
def stripPrice (s : String) : String :=
  ⟨(removeFirstChar '$' s.data).filter (fun c => c ≠ ',')⟩

/-- Whitespace skipped by `parseFloat`. -/
def isSpaceChar (c : Char) : Bool :=
  c = ' ' || c = '\t' || c = '\n' || c = '\r'

/-- Models `String.prototype.trim`: whitespace removed from both ends (the
price texts carry at most ASCII whitespace). -/
def jsTrim (s : String) : String :=
  ⟨((s.data.dropWhile isSpaceChar).reverse.dropWhile isSpaceChar).reverse⟩

/-- Digit part of the `parseFloat` model: reads `digits [ '.' digits ]` and
fails (NaN) when no digit is present. -/
def jsParseFloatAux (l : List Char) : Option ℚ :=
  let d1 := l.takeWhile Char.isDigit
  match l.dropWhile Char.isDigit with
  | '.' :: tail =>
    let d2 := tail.takeWhile Char.isDigit
    if d1.isEmpty && d2.isEmpty then none
    else some ((digitsToNat d1 : ℚ) + fracToRat d2)
  | _ => if d1.isEmpty then none else some ((digitsToNat d1 : ℚ))

/-- Models JavaScript `parseFloat` on the strings this extension feeds it:
optional leading whitespace and sign, then decimal digits with at most one
decimal point.  (Exponents never occur in the assembled price strings and
are not modelled.)  `none` is JS `NaN`. -/
def jsParseFloat (s : String) : Option ℚ :=
  match s.data.dropWhile isSpaceChar with
  | [] => none
  | c :: t =>
    if c = '-' then (jsParseFloatAux t).map (fun q => -q)
    else if c = '+' then jsParseFloatAux t
    else jsParseFloatAux (c :: t)

/-- Value of a regex capture group of the coupon logic.  Every capture
produced below has the shape `digits [ '.' digits ]`, on which JS
`parseFloat` (and, for the percent capture, `parseInt`) reads the whole
capture as a decimal numeral; this function is that reading. -/
def capToRat (l : List Char) : ℚ :=
  (digitsToNat (l.takeWhile Char.isDigit) : ℚ) +
    match l.dropWhile Char.isDigit with
    | '.' :: fr => fracToRat (fr.takeWhile Char.isDigit)
    | _ => 0

/-- One anchored attempt of `/You pay \$(\d+\.?\d*)/i`: match the literal
`"you pay $"` case-insensitively at the head of `l`, then capture greedy
digits, an optional dot and further digits. -/
def youPayAt (l : List Char) : Option (List Char) :=
  if (l.take 9).map Char.toLower = "you pay $".data then
    let rest := l.drop 9
    let d1 := rest.takeWhile Char.isDigit
    if d1.isEmpty then none
    else
      match rest.dropWhile Char.isDigit with
      | '.' :: r2 => some (d1 ++ '.' :: r2.takeWhile Char.isDigit)
      | _ => some d1
  else none

/-- Leftmost match of `/You pay \$(\d+\.?\d*)/i`, returning capture group 1:
`item.textContent.match(/You pay \$(\d+\.?\d*)/i)`. -/
def youPayCapture : List Char → Option (List Char)
  | [] => none
  | c :: cs =>
    match youPayAt (c :: cs) with
    | some cap => some cap
    | none => youPayCapture cs

/-- Leftmost match of `/(\d+)%/` on the coupon text, returning capture
group 1 (the maximal digit run directly before the first qualifying `%`). -/
def percentCapture : List Char → Option (List Char)
  | [] => none
  | c :: cs =>
    if c.isDigit && (match (c :: cs).dropWhile Char.isDigit with
                     | '%' :: _ => true
                     | _ => false) then
      some ((c :: cs).takeWhile Char.isDigit)
    else percentCapture cs

/-- Leftmost match of `/\$(\d+(\.\d{2})?)/` on the coupon text, returning
capture group 1: digits after the first `$` that is followed by a digit,
plus `.dd` when exactly-two-digit cents follow. -/
def dollarCapture : List Char → Option (List Char)
  | [] => none
  | c :: cs =>
    if c = '$' then
      let d1 := cs.takeWhile Char.isDigit
      if d1.isEmpty then dollarCapture cs
      else
        match cs.dropWhile Char.isDigit with
        | '.' :: a :: b :: _ =>
          if a.isDigit && b.isDigit then some (d1 ++ ['.', a, b]) else some d1
        | _ => some d1
    else dollarCapture cs

/-- Models `Number.prototype.toFixed(2)` (decimal rounding, half away from
zero; the binary-float tie behaviour of JS is idealised). -/
def toFixed2 (q : ℚ) : String :=
  let cents : Nat := (Rat.floor (|q| * 100 + 1 / 2)).toNat
  let ip := cents / 100
  let fr := cents % 100
  (if q < 0 then "-" else "") ++ toString ip ++ "." ++
    (if fr < 10 then "0" else "") ++ toString fr

/-- One product container of the results page, modelled by the texts the
extractor reads from it.  Each `Option String` field is the `innerText`,
`textContent` or `href` of the corresponding `querySelector` result
(`none` when the selector finds no element). -/
structure Item where
  /-- innerText of `querySelector('h2 a span')`. -/
  h2aSpanText : Option String := none
  /-- innerText of `querySelector('.a-text-normal')`. -/
  aTextNormalText : Option String := none
  /-- innerText of `querySelector('.a-link-normal span')`. -/
  aLinkNormalSpanText : Option String := none
  /-- href of `querySelector('h2 a')`. -/
  h2aHref : Option String := none
  /-- href of `querySelector('.a-link-normal')`. -/
  aLinkNormalHref : Option String := none
  /-- innerText of `querySelector('.a-price-whole')`. -/
  aPriceWholeText : Option String := none
  /-- innerText of `querySelector('.a-price')`. -/
  aPriceText : Option String := none
  /-- innerText of `querySelector('.a-price-fraction')`. -/
  aPriceFractionText : Option String := none
  /-- textContent of the five delivery selectors
  (`[data-test-id="delivery-time"]`, `.a-color-base.a-text-bold`,
  `.a-color-success`, `.a-size-base.a-color-base`,
  `[data-csa-c-type="link"][data-csa-c-content*="delivery"]`), in order. -/
  deliverySelTexts : List (Option String) := []
  /-- `item.textContent`. -/
  textContent : String := ""
  /-- textContent of `querySelector('.s-coupon-unclipped')`. -/
  sCouponText : Option String := none
  /-- textContent of `querySelector('[data-csa-c-element-type="coupon"]')`. -/
  couponCsaText : Option String := none
deriving DecidableEq, Repr

/-- `titleElem = item.querySelector('h2 a span') || item.querySelector('.a-text-normal') || item.querySelector('.a-link-normal span')`. -/
def titleElemOf (it : Item) : Option String :=
  (it.h2aSpanText.orElse fun _ => it.aTextNormalText).orElse fun _ => it.aLinkNormalSpanText

/-- `urlElem = item.querySelector('h2 a') || item.querySelector('.a-link-normal')`. -/
def urlElemOf (it : Item) : Option String :=
  it.h2aHref.orElse fun _ => it.aLinkNormalHref

/-- `couponElem = item.querySelector('.s-coupon-unclipped') || item.querySelector('[data-csa-c-element-type="coupon"]')`, as its textContent. -/
def couponElemTextOf (it : Item) : Option String :=
  it.sCouponText.orElse fun _ => it.couponCsaText

/-- `priceWhole`: trimmed `.a-price-whole` text with its first dot removed,
falling back (when that is missing or empty) to the `.a-price` text, else
the empty string. -/
def priceWholeOf (it : Item) : String :=
  let w1 := match it.aPriceWholeText with
    | some t => removeFirstDot (jsTrim t)
    | none => ""
  if w1 ≠ "" then w1
  else match it.aPriceText with
    | some t => t
    | none => ""

/-- `priceFraction`: trimmed `.a-price-fraction` text, else empty. -/
def priceFractionOf (it : Item) : String :=
  match it.aPriceFractionText with
  | some t => jsTrim t
  | none => ""

/-- `priceStr`: dollar-formatted whole-and-fraction price, or the sentinel
string when no whole part was found. -/
def priceStrOf (it : Item) : String :=
  if priceWholeOf it ≠ "" then
    "$" ++ priceWholeOf it ++
      (if priceFractionOf it ≠ "" then "." ++ priceFractionOf it else "")
  else "No Price"

/-- `priceNum`: `-1` for the sentinel, otherwise
`parseFloat(priceStr.replace('$', '').replace(/,/g, ''))`. -/
def priceNumOf (it : Item) : JSNum :=
  if priceStrOf it = "No Price" then some (-1)
  else jsParseFloat (stripPrice (priceStrOf it))

/-- The coupon-adjustment of the extractor: given the coupon element text
and a positive base price, an explicit `You pay $X` phrase in the item
text wins; otherwise a percentage coupon, otherwise a dollar coupon
(floored at zero); otherwise the price is unchanged.  Returns the
`finalPrice` display string and the `finalPriceNum` number. -/
def finalPriceOf (it : Item) : String × JSNum :=
  match couponElemTextOf it, priceNumOf it with
  | some couponText, some p =>
    if 0 < p then
      match youPayCapture it.textContent.data with
      | some cap =>
        ("$" ++ toFixed2 (capToRat cap), some (capToRat cap))
      | none =>
        match percentCapture couponText.data with
        | some ds =>
          let discountAmount := p * ((digitsToNat ds : ℚ) / 100)
          ("$" ++ toFixed2 (p - discountAmount), some (p - discountAmount))
        | none =>
          match dollarCapture couponText.data with
          | some ds =>
            ("$" ++ toFixed2 (max 0 (p - capToRat ds)), some (max 0 (p - capToRat ds)))
          | none => (priceStrOf it, priceNumOf it)
    else (priceStrOf it, priceNumOf it)
  | _, _ => (priceStrOf it, priceNumOf it)

/-- The coupon-adjusted numeric price (`finalPriceNum`). -/
def finalPriceNumOf (it : Item) : JSNum :=
  (finalPriceOf it).2

/-- Scan of the prioritized delivery selectors: the first element with
non-empty text classifying as Today or Tomorrow wins and stops the scan;
elements matching neither are skipped. -/
def deliveryScan : List (Option String) → Option (String × Bool × Bool)
  | [] => none
  | none :: rest => deliveryScan rest
  | some t :: rest =>
    if t ≠ "" then
      let text := jsToLower t
      if strIncludes text "today" || strIncludes text "same day" ||
          (strIncludes text "within" && strIncludes text "hour") then
        some ("Today", true, false)
      else if strIncludes text "tomorrow" || strIncludes text "next day" then
        some ("Tomorrow", false, true)
      else deliveryScan rest
    else deliveryScan rest

/-- Delivery classification `(deliveryText, isDeliveryToday, isDeliveryTomorrow)`:
the selector scan, with a fallback scan over the whole item text. -/
def deliveryOf (it : Item) : String × Bool × Bool :=
  match deliveryScan it.deliverySelTexts with
  | some r => r
  | none =>
    let itemText := jsToLower it.textContent
    if strIncludes itemText "get it today" || strIncludes itemText "delivery today" ||
        strIncludes itemText "same-day delivery" then
      ("Today", true, false)
    else if strIncludes itemText "get it tomorrow" || strIncludes itemText "delivery tomorrow" ||
        strIncludes itemText "next-day delivery" || strIncludes itemText "1-day delivery" then
      ("Tomorrow", false, true)
    else ("", false, false)

/-- One entry of `processedItems`. -/
structure ProcessedItem where
  title : String
  url : String
  price : String
  priceNum : JSNum
  hasCoupon : Bool
  deliveryText : String
  isDeliveryToday : Bool
  isDeliveryTomorrow : Bool
deriving DecidableEq, Repr

/-- Processing of one container: all fields are computed, and the entry is
kept only when both a title element and a link element resolved
(`if (titleElem && urlElem)`). -/
def processItem (it : Item) : Option ProcessedItem :=
  match titleElemOf it, urlElemOf it with
  | some t, some u =>
    some { title := t
           url := u
           price := (finalPriceOf it).1
           priceNum := (finalPriceOf it).2
           hasCoupon := (couponElemTextOf it).isSome
           deliveryText := (deliveryOf it).1
           isDeliveryToday := (deliveryOf it).2.1
           isDeliveryTomorrow := (deliveryOf it).2.2 }
  | _, _ => none

/-- The `processedItems` list: containers whose title or link is missing
are dropped. -/
def processItems (items : List Item) : List ProcessedItem :=
  items.filterMap processItem

/-- Sort key of the comparator `(a, b) => a.priceNum - b.priceNum`.  A `NaN`
price makes the JS comparator inconsistent and the engine order
unspecified; the model pins `NaN` to `0` so that the sort is a function,
and the ordering theorems are stated for `NaN`-free lists only. -/
def sortKey (e : ProcessedItem) : ℚ :=
  e.priceNum.getD 0

/-- Comparator order of `processedItems.sort((a, b) => a.priceNum - b.priceNum)`. -/
def itemLe (a b : ProcessedItem) : Prop :=
  sortKey a ≤ sortKey b

instance : DecidableRel itemLe :=
  fun a b => inferInstanceAs (Decidable (sortKey a ≤ sortKey b))

instance : IsTotal ProcessedItem itemLe :=
  ⟨fun a b => le_total (sortKey a) (sortKey b)⟩

instance : IsTrans ProcessedItem itemLe :=
  ⟨fun _ _ _ hab hbc => le_trans hab hbc⟩

/-- `processedItems.sort((a, b) => a.priceNum - b.priceNum)`: a stable
ascending sort by `priceNum` (ES2019 `Array.prototype.sort` is stable). -/
def sortItems (l : List ProcessedItem) : List ProcessedItem :=
  l.insertionSort itemLe

/-- The template literal heading the generated fragment: embedded dark
stylesheet, the filter input, the three filter buttons, and the table
skeleton up to the open `tbody` (braces written as escapes). -/
def htmlHeader : String :=
"
      <style>
        body \x7b 
          background-color: #1e1e1e;
          color: #e0e0e0;
          min-width: 600px;
          width: 600px;
        \x7d
        #filter-input \x7b
          width: 100%;
          padding: 8px;
          margin-bottom: 10px;
          background-color: #2d2d2d;
          border: 1px solid #444;
          color: #e0e0e0;
          border-radius: 4px;
          box-sizing: border-box;
        \x7d
        #filter-input:focus \x7b
          outline: none;
          border-color: #89CFF0;
        \x7d
        .filter-controls \x7b
          margin-bottom: 10px;
          display: flex;
          gap: 10px;
          align-items: center;
        \x7d
        .delivery-filter \x7b
          background-color: #2d2d2d;
          border: 1px solid #444;
          color: #e0e0e0;
          padding: 5px 10px;
          border-radius: 4px;
          cursor: pointer;
        \x7d
        .delivery-filter:hover \x7b
          background-color: #3d3d3d;
        \x7d
        .delivery-filter.active \x7b
          background-color: #4CAF50;
          border-color: #4CAF50;
        \x7d
        table \x7b 
          border-collapse: collapse; 
          width: 100%;
          background-color: #1e1e1e;
        \x7d
        th, td \x7b 
          padding: 6px 8px; 
          text-align: left; 
          border-bottom: 1px solid #333; 
        \x7d
        th \x7b 
          background-color: #2d2d2d;
          color: #e0e0e0;
        \x7d
        tr:hover \x7b 
          background-color: #2d2d2d; 
        \x7d
        .hidden \x7b
          display: none;
        \x7d
        a \x7b
          color: #89CFF0;
          text-decoration: none;
        \x7d
        a:hover \x7b
          text-decoration: underline;
        \x7d
        .price-col \x7b 
          text-align: right; 
          width: 80px;
        \x7d
        .delivery-col \x7b
          text-align: center;
          width: 70px;
          font-size: 12px;
        \x7d
        .coupon-indicator \x7b
          display: inline-block;
          width: 12px;
          height: 12px;
          background-color: #4CAF50;
          margin-right: 8px;
          vertical-align: middle;
          border-radius: 2px;
        \x7d
        .coupon-price \x7b
          color: #4CAF50;
          font-weight: bold;
        \x7d
      </style>
      <input type=\"text\" id=\"filter-input\" placeholder=\"Filter products...\">
      <div class=\"filter-controls\">
        <button id=\"delivery-today-filter\" class=\"delivery-filter\">Del. Today</button>
        <button id=\"delivery-tomorrow-filter\" class=\"delivery-filter\">Del. Tomorrow</button>
        <button id=\"clear-filters\" class=\"delivery-filter\">Clear Filters</button>
      </div>
      <table>
        <thead>
          <tr>
            <th>Product</th>
            <th class=\"delivery-col\">Delivery</th>
            <th class=\"price-col\">Price</th>
          </tr>
        </thead>
        <tbody id=\"product-list\">
    "

/-- Rendering of the interpolated Booleans, `${item.isDeliveryToday}`. -/
def boolStr (b : Bool) : String :=
  if b then "true" else "false"

/-- One table row of the output, as produced inside the rendering loop. -/
def rowHtml (item : ProcessedItem) : String :=
  "\n        <tr class=\"product-row\" data-delivery-today=\"" ++
    boolStr item.isDeliveryToday ++
    "\" data-delivery-tomorrow=\"" ++ boolStr item.isDeliveryTomorrow ++ "\">\n          <td>" ++
    (if item.hasCoupon then
      "<span class=\"coupon-indicator\" title=\"Coupon Available\"></span>"
    else "") ++
    "<a href=\"" ++ item.url ++ "\" target=\"_blank\">" ++ item.title ++
    "</a></td>\n          <td class=\"delivery-col\" style=\"color: #4CAF50;\">" ++
    (if item.deliveryText = "" then "-" else item.deliveryText) ++
    "</td>\n          <td class=\"price-col " ++
    (if item.hasCoupon then "coupon-price" else "") ++
    "\">\n            " ++ item.price ++ "\n          </td>\n        </tr>"

/-- The whole markup fragment: header, one row per processed item in list
order, and the closing tags. -/
def buildHtml (items : List ProcessedItem) : String :=
  htmlHeader ++ String.join (items.map rowHtml) ++ "</tbody></table>"

/-- The `{ url, html }` object returned by the extractor. -/
structure ExtractResult where
  url : String
  html : String
deriving DecidableEq, Repr

/-- One frame's document, as the extractor reads it.  The three item lists
are the results of the three container selectors, tried in order.
`fault` models an exception thrown by a host DOM access during the scrape
(the popup.js body is wrapped in `try`): `some msg` stands for a raised
exception whose `message` is `msg`. -/
structure DOM where
  url : String
  searchResultItems : List Item := []
  sResultItems : List Item := []
  sgColInnerItems : List Item := []
  fault : Option String := none
deriving DecidableEq, Repr

/-- The container-selector fallback: `[data-component-type="s-search-result"]`,
then `.s-result-item`, then `.sg-col-inner`, stopping at the first
non-empty list. -/
def selectItems (dom : DOM) : List Item :=
  if dom.searchResultItems ≠ [] then dom.searchResultItems
  else if dom.sResultItems ≠ [] then dom.sResultItems
  else dom.sgColInnerItems

/-- Body of the extractor inside the `try`: may raise (modelled by
`Except.error` with the exception message, triggered by `DOM.fault`),
otherwise collects, processes, sorts and renders the items. -/
def extractBody (dom : DOM) : Except String ExtractResult :=
  match dom.fault with
  | some msg => Except.error msg
  | none =>
    Except.ok { url := dom.url
                html := buildHtml (sortItems (processItems (selectItems dom))) }

/-- The extractor with its `catch` boundary: a raised exception is
converted into a result whose html is an inline error string; the
function is total and always returns a `{ url, html }` record. -/
def extractAmazonResultsWithFrameInfo (dom : DOM) : ExtractResult :=
  match extractBody dom with
  | Except.ok r => r
  | Except.error msg =>
    { url := dom.url, html := "Error extracting results: " ++ msg }

/-- The active tab as `handleExtract` sees it (`tab.url` may be absent). -/
structure Tab where
  url : Option String
deriving DecidableEq, Repr

/-- The host-URL test `tab.url.match(/^https?:\/\/(www\.)?amazon\./)`:
drops the scheme prefix, then requires `amazon.` optionally preceded by
`www.`. -/
def dropHttpPrefix (l : List Char) : Option (List Char) :=
  if List.isPrefixOf "https://".data l then some (l.drop 8)
  else if List.isPrefixOf "http://".data l then some (l.drop 7)
  else none

/-- Whether the tab URL matches the Amazon hostname pattern. -/
def amazonUrlMatch (u : String) : Bool :=
  match dropHttpPrefix u.data with
  | some r =>
    List.isPrefixOf "amazon.".data r ||
      (List.isPrefixOf "www.".data r && List.isPrefixOf "amazon.".data (r.drop 4))
  | none => false

/-- Observable outcome of the pre-injection part of `handleExtract`:
either the early return on a missing `#results` element, a rejection
message written to the display area, or the call to
`chrome.scripting.executeScript`. -/
inductive ControllerStep where
  | noResultsDiv : ControllerStep
  | message : String → ControllerStep
  | inject : ControllerStep
deriving DecidableEq, Repr

/-- The guard sequence of `handleExtract`: missing `#results` element,
missing tab, missing or empty tab URL, off-domain URL, else injection. -/
def handleExtract (hasResultsDiv : Bool) (tab : Option Tab) : ControllerStep :=
  if !hasResultsDiv then ControllerStep.noResultsDiv
  else
    match tab with
    | none => ControllerStep.message "No active tab found."
    | some t =>
      match t.url with
      | none => ControllerStep.message "Tab has no URL."
      | some u =>
        if u = "" then ControllerStep.message "Tab has no URL."
        else if amazonUrlMatch u then ControllerStep.inject
        else ControllerStep.message "Please navigate to an Amazon search results page."

/-- The frame-result loop of the injection callback: the first frame whose
`result` is present with a non-empty html different from the empty-list
sentinel `<ul></ul>` supplies the output. -/
def pickOutput : List (Option ExtractResult) → Option String
  | [] => none
  | some r :: rest =>
    if r.html ≠ "" ∧ r.html ≠ "<ul></ul>" then some r.html else pickOutput rest
  | none :: rest => pickOutput rest

/-- The display text written by the injection callback after the loop. -/
def renderDisplay (results : List (Option ExtractResult)) : String :=
  match pickOutput results with
  | some output => output
  | none => "No results found."

/-- One rendered product row as the filter logic reads it back from the
DOM: the link text (when an `a` element is present), the two delivery
data-attributes, and whether the `hidden` class is currently applied. -/
structure Row where
  link : Option String
  deliveryTodayAttr : Option String
  deliveryTomorrowAttr : Option String
  hidden : Bool
deriving DecidableEq, Repr

/-- The filter state read at the top of `applyFilters`: the text input's
value and the `active` class state of the two delivery toggle buttons. -/
structure FilterState where
  textFilter : String
  todayActive : Bool
  tomorrowActive : Bool
deriving DecidableEq, Repr

/-- Per-row re-evaluation of `applyFilters`: text filter (case-insensitive
substring, skipped when the filter text is empty), then OR-composed
delivery filter (only constraining when a toggle is active); the `hidden`
class is set iff the row failed. -/
def applyFilterRow (st : FilterState) (row : Row) : Row :=
  let textFilter := jsToLower st.textFilter
  let title := match row.link with
    | some a => jsToLower a
    | none => ""
  let isDeliveryToday := row.deliveryTodayAttr == some "true"
  let isDeliveryTomorrow := row.deliveryTomorrowAttr == some "true"
  let showRow1 := !(textFilter != "" && !(strIncludes title textFilter))
  let matchesDeliveryFilter :=
    (st.todayActive && isDeliveryToday) || (st.tomorrowActive && isDeliveryTomorrow)
  let showRow2 :=
    if st.todayActive || st.tomorrowActive then showRow1 && matchesDeliveryFilter
    else showRow1
  { row with hidden := !showRow2 }

/-- `applyFilters`: every rendered row is re-evaluated in place; no row is
removed or reordered. -/
def applyFilters (st : FilterState) (rows : List Row) : List Row :=
  rows.map (applyFilterRow st)

/-- The state produced by the clear-filters click handler: empty text
filter, both toggles inactive. -/
def clearFiltersState : FilterState :=
  { textFilter := "", todayActive := false, tomorrowActive := false }

/-- The visibility condition as the specification states it: the text
filter is empty or a case-insensitive substring of the row's link text,
and either no delivery toggle is active or the row matches at least one
active toggle. -/
def specRowVisible (st : FilterState) (row : Row) : Bool :=
  let title := match row.link with
    | some a => jsToLower a
    | none => ""
  ((st.textFilter == "") || strIncludes title (jsToLower st.textFilter)) &&
    ((!st.todayActive && !st.tomorrowActive) ||
      (st.todayActive && (row.deliveryTodayAttr == some "true")) ||
      (st.tomorrowActive && (row.deliveryTomorrowAttr == some "true")))

/-! ## Helper lemmas -/

theorem fracToRat_nonneg (l : List Char) : 0 ≤ fracToRat l := by
  unfold fracToRat
  positivity

theorem capToRat_nonneg (l : List Char) : 0 ≤ capToRat l := by
  unfold capToRat
  have h1 : (0 : ℚ) ≤ (digitsToNat (l.takeWhile Char.isDigit) : ℚ) := Nat.cast_nonneg _
  have h2 : (0 : ℚ) ≤ (match l.dropWhile Char.isDigit with
      | '.' :: fr => fracToRat (fr.takeWhile Char.isDigit)
      | _ => 0) := by
    split
    · exact fracToRat_nonneg _
    · exact le_refl 0
  linarith

theorem jsToLower_empty_iff (s : String) : jsToLower s = "" ↔ s = "" := by
  cases s with
  | mk data =>
    cases data with
    | nil => simp [jsToLower]
    | cons c cs =>
      constructor
      · intro h
        exact absurd (congrArg String.data h) (by simp [jsToLower])
      · intro h
        exact absurd (congrArg String.data h) (by simp)

theorem jsToLower_beq_empty (s : String) : (jsToLower s == "") = (s == "") := by
  rw [Bool.eq_iff_iff]
  simp [jsToLower_empty_iff]

/-! ## C9: an item is kept iff both a title and a link element resolve -/

/-- C9: an extracted item contributes an output entry exactly when both the
title fallback chain and the link fallback chain resolve; an item missing
either one is dropped, whatever its price, coupon or delivery data. -/
theorem processItem_isSome_iff (it : Item) :
    (processItem it).isSome = ((titleElemOf it).isSome && (urlElemOf it).isSome) := by
  unfold processItem
  cases ht : titleElemOf it <;> cases hu : urlElemOf it <;> simp [ht, hu]

/-! ## C5: the extractor is total and converts exceptions into results -/

/-- C5: the extractor always returns a `{ url, html }` record (it is a total
function into `ExtractResult`); when the body raises, the exception is
caught at the boundary and converted into a result whose html is the
inline error message, and when the body succeeds its result is returned
unchanged. -/
theorem extractor_total_catch (dom : DOM) :
    (extractAmazonResultsWithFrameInfo dom).url = dom.url ∧
    (∀ msg, extractBody dom = Except.error msg →
      (extractAmazonResultsWithFrameInfo dom).html = "Error extracting results: " ++ msg) ∧
    (∀ r, extractBody dom = Except.ok r → extractAmazonResultsWithFrameInfo dom = r) := by
  cases hf : dom.fault <;>
    simp [extractAmazonResultsWithFrameInfo, extractBody, hf]

/-- The faulty frame used to witness the catch boundary. -/
def faultyDom : DOM :=
  { url := "https://www.amazon.com/s?k=a", fault := some "boom" }

theorem extractor_total_catch_witness :
    (extractAmazonResultsWithFrameInfo faultyDom).html = "Error extracting results: " ++ "boom" :=
  (extractor_total_catch faultyDom).2.1 "boom" rfl

/-! ## C6: off-domain, missing-tab and missing-URL states are rejected -/

/-- C6: whenever the active tab is missing, has no URL, or has a URL that
does not match the Amazon hostname pattern, `handleExtract` writes a
rejection message to the display area and never reaches the script
injection call. -/
theorem handleExtract_rejects (t : Option Tab) :
    (t = none →
      handleExtract true t = ControllerStep.message "No active tab found.") ∧
    (∀ tb, t = some tb → tb.url = none →
      handleExtract true t = ControllerStep.message "Tab has no URL.") ∧
    (∀ tb u, t = some tb → tb.url = some u → amazonUrlMatch u = false →
      handleExtract true t ≠ ControllerStep.inject ∧
      ∃ msg, handleExtract true t = ControllerStep.message msg) := by
  refine ⟨?_, ?_, ?_⟩
  · rintro rfl
    rfl
  · rintro tb rfl hu
    simp [handleExtract, hu]
  · rintro tb u rfl hu hmatch
    by_cases he : u = "" <;>
      simp [handleExtract, hu, he, hmatch]

theorem handleExtract_rejects_witness :
    handleExtract true (some { url := some "https://www.google.com" }) ≠
      ControllerStep.inject ∧
    ∃ msg, handleExtract true (some { url := some "https://www.google.com" }) =
      ControllerStep.message msg :=
  (handleExtract_rejects (some { url := some "https://www.google.com" })).2.2
    { url := some "https://www.google.com" } "https://www.google.com" rfl rfl (by decide)

/-! ## C4 and C7: the filter logic -/

theorem showRow_formula (e f a b c d : Bool) :
    (if a || b then (!(e && !f)) && ((a && c) || (b && d)) else (!(e && !f))) =
      (((!e) || f) && ((!a && !b) || (a && c) || (b && d))) := by
  revert e f a b c d
  decide

theorem applyFilterRow_eq (st : FilterState) (row : Row) :
    applyFilterRow st row = { row with hidden := !specRowVisible st row } := by
  cases row with
  | mk link dT dTm hid =>
    unfold applyFilterRow specRowVisible
    simp only []
    congr 1
    rw [showRow_formula]
    have h1 : (!(jsToLower st.textFilter != "")) = (st.textFilter == "") := by
      rw [bne, Bool.not_not, jsToLower_beq_empty]
    rw [h1]

theorem applyFilterRow_idem (st : FilterState) (row : Row) :
    applyFilterRow st (applyFilterRow st row) = applyFilterRow st row := by
  cases row
  rfl

/-- The state with both delivery toggles active and no text filter. -/
def bothTogglesState : FilterState :=
  { textFilter := "", todayActive := true, tomorrowActive := true }

/-- A rendered row categorized Today. -/
def todayRow : Row :=
  { link := some "Alpha", deliveryTodayAttr := some "true",
    deliveryTomorrowAttr := some "false", hidden := false }

/-- A rendered row categorized Tomorrow. -/
def tomorrowRow : Row :=
  { link := some "Beta", deliveryTodayAttr := some "false",
    deliveryTomorrowAttr := some "true", hidden := false }

/-- A rendered row with no delivery category. -/
def plainRow : Row :=
  { link := some "Gamma", deliveryTodayAttr := some "false",
    deliveryTomorrowAttr := some "false", hidden := false }

/-- C4: re-evaluation equals, row for row in place (same rows, same order,
only the `hidden` class changed), the specification's visibility rule:
visible iff the text filter is empty or a case-insensitive substring of
the link text, and no toggle is active or the row matches an active
toggle.  With both toggles active, a Today row and a Tomorrow row stay
visible and an uncategorized row is hidden. -/
theorem applyFilters_visibility :
    (∀ st rows, applyFilters st rows =
      rows.map (fun row => { row with hidden := !specRowVisible st row })) ∧
    (applyFilters bothTogglesState [todayRow, tomorrowRow, plainRow]).map Row.hidden =
      [false, false, true] := by
  constructor
  · intro st rows
    unfold applyFilters
    rw [show applyFilterRow st = (fun row => { row with hidden := !specRowVisible st row })
        from funext (applyFilterRow_eq st)]
  · decide

/-- C7: re-evaluating with an unchanged filter state is idempotent, and the
cleared state (empty text, both toggles inactive) re-evaluates every row
to visible, leaving the row list itself (order included) untouched. -/
theorem applyFilters_idempotent_clear :
    (∀ st rows, applyFilters st (applyFilters st rows) = applyFilters st rows) ∧
    (∀ rows, applyFilters clearFiltersState rows =
      rows.map (fun row => { row with hidden := false })) := by
  constructor
  · intro st rows
    unfold applyFilters
    rw [List.map_map]
    rw [show applyFilterRow st ∘ applyFilterRow st = applyFilterRow st
        from funext (applyFilterRow_idem st)]
  · intro rows
    unfold applyFilters
    rw [show applyFilterRow clearFiltersState = (fun row : Row => { row with hidden := false })
        from funext (fun row => by cases row; rfl)]

/-! ## C8: the extractor's html is never empty nor the empty-list sentinel -/

theorem string_ne_of_head (s t : String) (h : s.data.head? ≠ t.data.head?) : s ≠ t :=
  fun e => h (congrArg (fun x => x.data.head?) e)

theorem extract_html_head (dom : DOM) :
    (extractAmazonResultsWithFrameInfo dom).html.data.head? = some '\n' ∨
    (extractAmazonResultsWithFrameInfo dom).html.data.head? = some 'E' := by
  cases hf : dom.fault with
  | none =>
    left
    show (extractAmazonResultsWithFrameInfo dom).html.data.head? = _
    unfold extractAmazonResultsWithFrameInfo extractBody
    rw [hf]
    show (buildHtml _).data.head? = _
    unfold buildHtml
    rw [String.data_append, String.data_append, List.append_assoc, List.head?_append]
    rfl
  | some msg =>
    right
    unfold extractAmazonResultsWithFrameInfo extractBody
    rw [hf]
    show ("Error extracting results: " ++ msg).data.head? = _
    rw [String.data_append, List.head?_append]
    rfl

theorem pickOutput_isSome_of_mem (r : ExtractResult) (frames : List (Option ExtractResult))
    (hmem : some r ∈ frames) (h1 : r.html ≠ "") (h2 : r.html ≠ "<ul></ul>") :
    (pickOutput frames).isSome = true := by
  induction frames with
  | nil => cases hmem
  | cons f rest ih =>
    rcases List.mem_cons.mp hmem with hhead | htail
    · rw [← hhead]
      simp [pickOutput, h1, h2]
    · cases f with
      | none => exact ih htail
      | some r2 =>
        by_cases hc : r2.html ≠ "" ∧ r2.html ≠ "<ul></ul>"
        · simp [pickOutput, hc]
        · simpa [pickOutput, hc] using ih htail

/-- C8: whatever the input document — including one with no containers or
zero valid entries — the extractor's html is non-empty and never equals
the controller's empty-list sentinel `<ul></ul>`; on a non-raising run it
carries the whole embedded header (stylesheet, filter controls and table
skeleton).  Hence when any frame holds a result of the extractor, the
frame loop finds an output and the `No results found.` branch is
unreachable. -/
theorem extractor_never_sentinel (dom : DOM) (frames : List (Option ExtractResult))
    (hmem : some (extractAmazonResultsWithFrameInfo dom) ∈ frames) :
    (extractAmazonResultsWithFrameInfo dom).html ≠ "" ∧
    (extractAmazonResultsWithFrameInfo dom).html ≠ "<ul></ul>" ∧
    (pickOutput frames).isSome = true ∧
    (∀ r, extractBody dom = Except.ok r → ∃ rest, r.html = htmlHeader ++ rest) := by
  have h1 : (extractAmazonResultsWithFrameInfo dom).html ≠ "" := by
    rcases extract_html_head dom with h | h <;>
      exact string_ne_of_head _ _ (by rw [h]; decide)
  have h2 : (extractAmazonResultsWithFrameInfo dom).html ≠ "<ul></ul>" := by
    rcases extract_html_head dom with h | h <;>
      exact string_ne_of_head _ _ (by rw [h]; decide)
  refine ⟨h1, h2, pickOutput_isSome_of_mem _ frames hmem h1 h2, ?_⟩
  intro r hr
  cases hf : dom.fault with
  | some msg =>
    rw [show extractBody dom = Except.error msg from by
      unfold extractBody; rw [hf]] at hr
    cases hr
  | none =>
    rw [show extractBody dom =
        Except.ok { url := dom.url
                    html := buildHtml (sortItems (processItems (selectItems dom))) } from by
      unfold extractBody; rw [hf]] at hr
    cases hr
    exact ⟨String.join ((sortItems (processItems (selectItems dom))).map rowHtml) ++
      "</tbody></table>", (String.append_assoc _ _ _)⟩

/-- A frame with zero product containers, for the witness. -/
def emptyDom : DOM :=
  { url := "https://www.amazon.com/s?k=test" }

theorem extractor_never_sentinel_witness :
    (extractAmazonResultsWithFrameInfo emptyDom).html ≠ "" ∧
    (extractAmazonResultsWithFrameInfo emptyDom).html ≠ "<ul></ul>" ∧
    (pickOutput [some (extractAmazonResultsWithFrameInfo emptyDom)]).isSome = true :=
  let h := extractor_never_sentinel emptyDom
    [some (extractAmazonResultsWithFrameInfo emptyDom)] (List.mem_cons_self _ _)
  ⟨h.1, h.2.1, h.2.2.1⟩


/-! ## C1, C2, C10: the coupon arithmetic

The rational operations of Batteries are `@[irreducible]`; the section
makes them semireducible again so that concrete prices evaluate by
`decide`. -/

section RatEval

attribute [local semireducible] Rat.add Rat.mul Rat.inv Rat.sub Rat.ofScientific

/-- A coupon-bearing item whose page text claims `You pay $30.00` on a
`$25.00` base price. -/
def youPayItem : Item :=
  { h2aSpanText := some "Widget", h2aHref := some "https://www.amazon.com/widget",
    aPriceWholeText := some "25", aPriceFractionText := some "00",
    sCouponText := some "Coupon available",
    textContent := "Widget You pay $30.00 with coupon" }

/-- Counterexample to C1 as stated: a coupon-bearing entry with positive
base price 25 whose `You pay $30.00` phrase makes the computed effective
price 30, strictly above the base price. -/
theorem youPay_exceeds_base_counterexample :
    (couponElemTextOf youPayItem).isSome = true ∧
    priceNumOf youPayItem = some 25 ∧
    finalPriceNumOf youPayItem = some 30 ∧
    (processItem youPayItem).map (fun e => e.priceNum) = some (some 30) ∧
    ¬ (30 : ℚ) ≤ 25 := by
  refine ⟨rfl, by decide, by decide, by decide, by decide⟩

/-- C1 (amended): for a coupon-bearing entry with positive base price, when
no `You pay $X` phrase is present the computed effective price never
exceeds the base price, and outside the percentage branch (in particular
for dollar-amount coupons, where the `max 0` floor applies) it is also
nonnegative.  The `You pay` branch is excluded: it adopts the phrase's
amount verbatim, which may exceed the base price. -/
theorem coupon_price_bounds (it : Item) (ct : String) (p : ℚ)
    (hc : couponElemTextOf it = some ct)
    (hp : priceNumOf it = some p) (h0 : 0 < p)
    (hy : youPayCapture it.textContent.data = none) :
    ∃ q, finalPriceNumOf it = some q ∧ q ≤ p ∧
      (percentCapture ct.data = none → 0 ≤ q) := by
  rcases Option.eq_none_or_eq_some (percentCapture ct.data) with hpc | ⟨ds, hpc⟩
  case inr =>
    refine ⟨p - p * ((digitsToNat ds : ℚ) / 100), ?_, ?_, ?_⟩
    · unfold finalPriceNumOf finalPriceOf
      simp only [hc, hp, if_pos h0, hy, hpc]
    · have hnn : 0 ≤ p * ((digitsToNat ds : ℚ) / 100) :=
        mul_nonneg h0.le (by positivity)
      linarith
    · intro hnone
      rw [hnone] at hpc
      cases hpc
  case inl =>
    rcases Option.eq_none_or_eq_some (dollarCapture ct.data) with hdc | ⟨ds, hdc⟩
    case inr =>
      refine ⟨max 0 (p - capToRat ds), ?_, ?_, fun _ => le_max_left 0 _⟩
      · unfold finalPriceNumOf finalPriceOf
        simp only [hc, hp, if_pos h0, hy, hpc, hdc]
      · exact max_le h0.le (sub_le_self p (capToRat_nonneg ds))
    case inl =>
      refine ⟨p, ?_, le_refl p, fun _ => h0.le⟩
      unfold finalPriceNumOf finalPriceOf
      simp only [hc, hp, if_pos h0, hy, hpc, hdc]

/-- A coupon-bearing item with a plain dollar coupon, used as witness. -/
def dollarItem : Item :=
  { h2aSpanText := some "Thing", h2aHref := some "https://www.amazon.com/thing",
    aPriceWholeText := some "25", aPriceFractionText := some "00",
    sCouponText := some "Save $5 with coupon",
    textContent := "Thing Save $5 with coupon" }

theorem coupon_price_bounds_witness :
    ∃ q, finalPriceNumOf dollarItem = some q ∧ q ≤ 25 ∧
      (percentCapture "Save $5 with coupon".data = none → 0 ≤ q) :=
  coupon_price_bounds dollarItem "Save $5 with coupon" 25 rfl (by decide) (by decide) (by decide)

/-- C2: with a coupon indicator and positive base price, a `You pay $X`
phrase anywhere in the item text is authoritative — the effective price is
exactly the phrase's amount, whatever the coupon element's percentage or
dollar text says — and only in its absence is the percentage branch
consulted, which itself takes precedence over the dollar branch. -/
theorem youPay_overrides (it : Item) (ct : String) (p : ℚ)
    (hc : couponElemTextOf it = some ct)
    (hp : priceNumOf it = some p) (h0 : 0 < p) :
    (∀ cap, youPayCapture it.textContent.data = some cap →
      finalPriceNumOf it = some (capToRat cap)) ∧
    (youPayCapture it.textContent.data = none →
      ∀ ds, percentCapture ct.data = some ds →
        finalPriceNumOf it = some (p - p * ((digitsToNat ds : ℚ) / 100))) := by
  constructor
  · intro cap hcap
    unfold finalPriceNumOf finalPriceOf
    simp only [hc, hp, if_pos h0, hcap]
  · intro hy ds hds
    unfold finalPriceNumOf finalPriceOf
    simp only [hc, hp, if_pos h0, hy, hds]

/-- The specification's example: `10% off` coupon text together with a
`You pay $19.99` phrase on a `$25.00` base. -/
def mixedCouponItem : Item :=
  { h2aSpanText := some "Gadget", h2aHref := some "https://www.amazon.com/gadget",
    aPriceWholeText := some "25", aPriceFractionText := some "00",
    sCouponText := some "10% off",
    textContent := "Gadget 10% off You pay $19.99" }

theorem youPay_overrides_witness :
    finalPriceNumOf mixedCouponItem = some (capToRat ['1', '9', '.', '9', '9']) ∧
    capToRat ['1', '9', '.', '9', '9'] = (1999 : ℚ) / 100 ∧
    percentCapture "10% off".data = some ['1', '0'] ∧
    (1999 : ℚ) / 100 ≠ 25 - 25 * ((digitsToNat ['1', '0'] : ℚ) / 100) :=
  ⟨(youPay_overrides mixedCouponItem "10% off" 25 rfl (by decide) (by decide)).1
      ['1', '9', '.', '9', '9'] (by decide),
    by decide, by decide, by decide⟩

/-- C10: the zero floor lives only in the dollar branch — a percentage
coupon above `100%` (with a coupon indicator, a positive base price and no
`You pay` phrase) drives the computed effective price strictly below zero. -/
theorem percent_over_100_negative (it : Item) (ct : String) (p : ℚ) (ds : List Char)
    (hc : couponElemTextOf it = some ct)
    (hp : priceNumOf it = some p) (h0 : 0 < p)
    (hy : youPayCapture it.textContent.data = none)
    (hpc : percentCapture ct.data = some ds)
    (hn : 100 < (digitsToNat ds : ℚ)) :
    ∃ q, finalPriceNumOf it = some q ∧ q < 0 := by
  refine ⟨p - p * ((digitsToNat ds : ℚ) / 100), ?_, ?_⟩
  · unfold finalPriceNumOf finalPriceOf
    simp only [hc, hp, if_pos h0, hy, hpc]
  · have h1 : (1 : ℚ) < (digitsToNat ds : ℚ) / 100 := by
      rw [lt_div_iff₀ (by norm_num : (0 : ℚ) < 100)]
      linarith
    nlinarith

/-- A `$10.00` base with a `150% off` coupon, used as witness. -/
def percent150Item : Item :=
  { h2aSpanText := some "Item", h2aHref := some "https://www.amazon.com/item",
    aPriceWholeText := some "10", aPriceFractionText := some "00",
    sCouponText := some "150% off",
    textContent := "Item 150% off" }

theorem percent_over_100_negative_witness :
    ∃ q, finalPriceNumOf percent150Item = some q ∧ q < 0 :=
  percent_over_100_negative percent150Item "150% off" 10 ['1', '5', '0']
    rfl (by decide) (by decide) (by decide) (by decide) (by decide)

end RatEval

/-! ## C3: row order after sorting -/

section SortEval

attribute [local semireducible] Rat.add Rat.mul Rat.inv Rat.sub Rat.ofScientific

/-- An item with no price information at all. -/
def noPriceItem : Item :=
  { h2aSpanText := some "Mystery", h2aHref := some "https://www.amazon.com/mystery",
    textContent := "Mystery" }

/-- A `$1` item with a `300% off` coupon: its effective price is `-2`. -/
def bigCouponItem : Item :=
  { h2aSpanText := some "Cheap", h2aHref := some "https://www.amazon.com/cheap",
    aPriceWholeText := some "1",
    sCouponText := some "300% off",
    textContent := "Cheap 300% off" }

/-- Counterexample to C3 as stated: a reachable entry with a negative
effective price (a percentage coupon above 100%) sorts before the `-1`
sentinel, so the unpriced entry is not first even though one exists. -/
theorem sort_negative_before_sentinel_counterexample :
    (processItems [noPriceItem, bigCouponItem]).map (fun e => e.priceNum) =
      [some (-1), some (-2)] ∧
    (sortItems (processItems [noPriceItem, bigCouponItem])).map (fun e => e.priceNum) =
      [some (-2), some (-1)] ∧
    (sortItems (processItems [noPriceItem, bigCouponItem])).head?.map
      (fun e => e.priceNum) ≠ some (some (-1)) := by
  refine ⟨by decide, by decide, by decide⟩

/-- A processed entry carrying only the fields relevant to sorting. -/
def entryOf (t : String) (n : JSNum) : ProcessedItem :=
  { title := t, url := "", price := "", priceNum := n, hasCoupon := false,
    deliveryText := "", isDeliveryToday := false, isDeliveryTomorrow := false }

/-- The specification's sorting example: effective prices
`[-1, 12.50, 3.00, -1, 7.25]`. -/
def exampleEntries : List ProcessedItem :=
  [entryOf "a" (some (-1)), entryOf "b" (some 12.5), entryOf "c" (some 3),
    entryOf "d" (some (-1)), entryOf "e" (some 7.25)]

/-- C3 (amended): sorting is a permutation of the processed list, rendered
in list order.  On every list of entries with numeric (non-`NaN`)
effective prices — negative prices included — it is ascending by
effective price and stable: the entries of any one effective price keep
their original relative order.  Whenever every entry's effective price is
the `-1` sentinel or nonnegative (i.e. absent the >100%-coupon corner
case of the counterexample), the unpriced entries come first.  On the
specification's example `[-1, 12.50, 3.00, -1, 7.25]` the rendered order
is `[-1, -1, 3.00, 7.25, 12.50]`. -/
theorem sortItems_sorted_sentinel_first (l : List ProcessedItem) :
    List.Perm (sortItems l) l ∧
    ((∀ e ∈ l, e.priceNum.isSome = true) →
      (sortItems l).Pairwise
        (fun a b => ∀ x y, a.priceNum = some x → b.priceNum = some y → x ≤ y) ∧
      (∀ k : ℚ, (sortItems l).filter (fun e => decide (e.priceNum = some k)) =
        l.filter (fun e => decide (e.priceNum = some k)))) ∧
    ((∀ e ∈ l, e.priceNum = some (-1) ∨ ∃ q, e.priceNum = some q ∧ 0 ≤ q) →
      (sortItems l).Pairwise
        (fun a b => b.priceNum = some (-1) → a.priceNum = some (-1))) ∧
    buildHtml (sortItems l) =
      htmlHeader ++ String.join ((sortItems l).map rowHtml) ++ "</tbody></table>" ∧
    (sortItems exampleEntries).map (fun e => e.priceNum) =
      [some (-1), some (-1), some 3, some 7.25, some 12.5] := by
  have hs : (sortItems l).Pairwise itemLe := List.sorted_insertionSort itemLe l
  have hperm : List.Perm (sortItems l) l := List.perm_insertionSort itemLe l
  refine ⟨hperm, fun _ => ⟨?_, ?_⟩, ?_, rfl, by decide⟩
  · refine hs.imp ?_
    intro a b hab x y hx hy
    unfold itemLe sortKey at hab
    rw [hx, hy] at hab
    simpa using hab
  · intro k
    have hmemp : ∀ e ∈ l.filter (fun e => decide (e.priceNum = some k)),
        e.priceNum = some k := by
      intro e he
      exact of_decide_eq_true (List.mem_filter.mp he).2
    have hpw : (l.filter (fun e => decide (e.priceNum = some k))).Pairwise itemLe := by
      refine List.pairwise_of_forall_mem_list ?_
      intro a ha b hb
      unfold itemLe sortKey
      rw [hmemp a ha, hmemp b hb]
    have h1 : List.Sublist (l.filter (fun e => decide (e.priceNum = some k))) (sortItems l) :=
      List.sublist_insertionSort hpw (List.filter_sublist l)
    have h2 : List.Sublist (l.filter (fun e => decide (e.priceNum = some k)))
        ((sortItems l).filter (fun e => decide (e.priceNum = some k))) := by
      have h3 := List.Sublist.filter (fun e => decide (e.priceNum = some k)) h1
      rwa [List.filter_eq_self.mpr (fun a ha => decide_eq_true (hmemp a ha))] at h3
    have h4 : List.Perm ((sortItems l).filter (fun e => decide (e.priceNum = some k)))
        (l.filter (fun e => decide (e.priceNum = some k))) :=
      hperm.filter _
    exact (List.Sublist.eq_of_length h2 h4.length_eq.symm).symm
  · intro h
    rw [List.pairwise_iff_get] at hs ⊢
    intro i j hij hj
    have hmem : (sortItems l).get i ∈ l :=
      hperm.mem_iff.mp (List.get_mem _ _ _)
    rcases h _ hmem with h1 | ⟨q, hq, h0q⟩
    · exact h1
    · have hle := hs i j hij
      unfold itemLe sortKey at hle
      rw [hq, hj] at hle
      simp only [Option.getD_some] at hle
      exact absurd h0q (by linarith)

theorem sortItems_sorted_sentinel_first_witness :
    (sortItems exampleEntries).Pairwise
      (fun a b => ∀ x y, a.priceNum = some x → b.priceNum = some y → x ≤ y) ∧
    (sortItems exampleEntries).Pairwise
      (fun a b => b.priceNum = some (-1) → a.priceNum = some (-1)) :=
  ⟨((sortItems_sorted_sentinel_first exampleEntries).2.1 (by decide)).1,
    (sortItems_sorted_sentinel_first exampleEntries).2.2.1 (by
      intro e he
      simp only [exampleEntries, List.mem_cons, List.not_mem_nil, or_false] at he
      rcases he with rfl | rfl | rfl | rfl | rfl
      · exact Or.inl rfl
      · exact Or.inr ⟨12.5, rfl, by norm_num⟩
      · exact Or.inr ⟨3, rfl, by norm_num⟩
      · exact Or.inl rfl
      · exact Or.inr ⟨7.25, rfl, by norm_num⟩)⟩

end SortEval
